import Mathlib

/-!
Verification of the tide-prediction service core (`main.py`).

Conventions of the embedding:
- Instants are rationals: seconds elapsed since the model's reference epoch
  `INITIAL_TIME` = 2000-01-01 00:00:00 UTC (signed; negative before the epoch).
- Levels are rationals (cm).
- The cosine function is not executable over ℚ, so every definition that
  needs it takes an abstract `c : ℚ → ℚ` as a parameter; theorems quantify
  over `c` (hence hold for the real cosine in particular), and concrete
  evaluations pin `c` at arguments where the real cosine's value is known.
- The per-constituent angular speeds are looked up by the external `uptide`
  library from its astronomical tables; they are kept abstract as a list
  `oms : List ℚ` (radians/second), and `np.radians` conversion keeps the
  value of π abstract as `pi_ : ℚ`, since no claim depends on their values.
-/

/-- The 13 constituent names (main.py line 15). -/
def CONS_NAMES : List String :=
  ["M2", "S2", "K1", "O1", "M4", "MS4", "M6", "N2", "K2", "P1", "Q1", "Sa", "Ssa"]

/-- Site amplitudes in cm (main.py line 16). -/
def CONS_H : List ℚ :=
  [573/100, 529/100, 89, 10906/100, 136/100, 120/100, 22/100, 60/100,
   290/100, 2567/100, 2014/100, 803/100, 235/100]

/-- Site phase offsets in degrees (main.py line 17). -/
def CONS_G : List ℚ :=
  [4724/100, 10585/100, 7971/100, 4155/100, 21036/100, 28671/100, 18083/100,
   5148/100, 6038/100, 8407/100, 36501/100, 19626/100, 9756/100]

/-- Calibrated mean level in cm (main.py line 26). -/
def A0 : ℚ := 214

/-- `np.radians` (main.py line 39): degrees to radians, with the value of π
abstracted as `pi_`. -/
def deg2rad (pi_ g : ℚ) : ℚ := g * pi_ / 180

/-- Modelled from the spec: `uptide.Tides.from_amplitude_phase` (called on
main.py line 55) is an external library whose code is not in the repository;
the spec's invariant (§3) describes it as the superposition
`Σ_i amplitude_i · cos(angular_speed_i · Δt − phase_offset_i)`,
with the cosine abstracted as `c`. -/
def from_amplitude_phase (c : ℚ → ℚ) (amps phs oms : List ℚ) (t : ℚ) : ℚ :=
  ((amps.zip (phs.zip oms)).map (fun x => x.1 * c (x.2.2 * t - x.2.1))).sum

/-- Round-half-even to an integer, the rounding used by Python's `round`. -/
def roundHalfEven (y : ℚ) : ℤ :=
  if Int.fract y < 1/2 then ⌊y⌋
  else if (1:ℚ)/2 < Int.fract y then ⌊y⌋ + 1
  else if 2 ∣ ⌊y⌋ then ⌊y⌋ else ⌊y⌋ + 1

/-- Python's `round(x, 2)` (main.py line 61): round to 2 decimal places. -/
def round2 (x : ℚ) : ℚ := (roundHalfEven (100 * x) : ℚ) / 100

/-- The synthesis pipeline of main.py lines 54-61 for an arbitrary model
(mean level `mean`, amplitude/phase/speed lists): mean plus superposition,
rounded to 2 decimals. -/
def calculate_general (c : ℚ → ℚ) (mean : ℚ) (amps phs oms : List ℚ) (t : ℚ) : ℚ :=
  round2 (mean + from_amplitude_phase c amps phs oms t)

/-- `calculate_tide_uptide` (main.py lines 41-62): the Hon Dau model's level at
`t` seconds after the reference epoch, using the module-level calibration
constants, phases converted from degrees to radians (line 39). -/
def calculate_tide_uptide (c : ℚ → ℚ) (oms : List ℚ) (pi_ t : ℚ) : ℚ :=
  calculate_general c A0 CONS_H (CONS_G.map (deg2rad pi_)) oms t

/-- The integer produced by round-half-even is within 1/2 of its argument. -/
theorem abs_roundHalfEven_sub_le (y : ℚ) : |(roundHalfEven y : ℚ) - y| ≤ 1/2 := by
  have hfr : (⌊y⌋ : ℚ) - y = -Int.fract y := by rw [Int.fract]; ring
  have h0 : 0 ≤ Int.fract y := Int.fract_nonneg y
  have h1 : Int.fract y < 1 := Int.fract_lt_one y
  unfold roundHalfEven
  split_ifs with ha hb hc
  · rw [hfr, abs_neg, abs_of_nonneg h0]; linarith
  · have e : ((⌊y⌋ + 1 : ℤ) : ℚ) - y = 1 - Int.fract y := by
      push_cast; rw [Int.fract]; ring
    rw [e, abs_of_nonneg (by linarith)]; linarith
  · have e : Int.fract y = 1/2 := le_antisymm (not_lt.mp hb) (not_lt.mp ha)
    rw [hfr, abs_neg, abs_of_nonneg h0, e]
  · have e2 : Int.fract y = 1/2 := le_antisymm (not_lt.mp hb) (not_lt.mp ha)
    have e : ((⌊y⌋ + 1 : ℤ) : ℚ) - y = 1 - Int.fract y := by
      push_cast; rw [Int.fract]; ring
    rw [e, e2, abs_of_nonneg (by norm_num)]; norm_num

/-- Rounding to 2 decimal places moves a value by at most 1/200 = 0.005. -/
theorem abs_round2_sub_le (x : ℚ) : |round2 x - x| ≤ 1/200 := by
  have h := abs_roundHalfEven_sub_le (100 * x)
  have e : round2 x - x = ((roundHalfEven (100 * x) : ℚ) - 100 * x) / 100 := by
    unfold round2; ring
  rw [e, abs_div, abs_of_pos (by norm_num : (0:ℚ) < 100)]
  linarith

/-- The superposition over a single constituent is the single cosine term. -/
theorem from_amplitude_phase_single (c : ℚ → ℚ) (H G om t : ℚ) :
    from_amplitude_phase c [H] [G] [om] t = H * c (om * t - G) := by
  simp [from_amplitude_phase]

/-- C1. For every timestamp `t` (seconds since the 2000-01-01 UTC reference
epoch, signed), `calculate_tide_uptide` returns the 2-decimal rounding of
`A0` plus the 13-constituent superposition
`Σ_i H_i · c (ω_i · Δt − G_i)` with phase offsets the configured degree
values converted to radians; consequently, for a single-constituent model
(mean `mean`, amplitude `H`, phase `G`, speed `om`) the result equals
`mean + H · c (om · t − G)` within the rounding half-width 1/200 = 0.005
(not within 1e-6), for every `t` — zero, large positive, or negative. -/
theorem C1_level_is_rounded_superposition :
    (∀ (c : ℚ → ℚ) (oms : List ℚ) (pi_ t : ℚ),
      calculate_tide_uptide c oms pi_ t
        = round2 (A0 + from_amplitude_phase c CONS_H (CONS_G.map (deg2rad pi_)) oms t))
    ∧ (∀ (c : ℚ → ℚ) (mean H G om t : ℚ),
      |calculate_general c mean [H] [G] [om] t - (mean + H * c (om * t - G))| ≤ 1/200) := by
  constructor
  · intro c oms pi_ t
    rfl
  · intro c mean H G om t
    have e : calculate_general c mean [H] [G] [om] t
        = round2 (mean + H * c (om * t - G)) := by
      unfold calculate_general
      rw [from_amplitude_phase_single]
    rw [e]
    exact abs_round2_sub_le _

/-- A cosine stand-in that agrees with the real cosine at the argument 0,
the only point where the counterexample evaluates it. -/
def cosOne : ℚ → ℚ := fun _ => 1

/-- C1 counterexample. For the single-constituent model with mean 0,
amplitude H = 1/250 = 0.004, phase G = 0, speed ω = 1, at Δt = 0 the
evaluated cosine argument is 0 where `cosOne` agrees with the real cosine
(`cos 0 = 1`); the function returns `round2 0.004 = 0`, which differs from
`A0 + H·cos(ω·Δt − G) = 0.004` by more than the claimed 1e-6 tolerance. -/
theorem C1_counterexample :
    ((cosOne 0 : ℚ) : ℝ) = Real.cos 0
    ∧ ¬ (|calculate_general cosOne 0 [1/250] [0] [1] 0
          - (0 + (1/250) * cosOne ((1:ℚ) * 0 - 0))| ≤ 1/1000000) := by
  constructor
  · simp [cosOne]
  · have e : calculate_general cosOne 0 [1/250] [0] [1] 0 = round2 (1/250) := by
      unfold calculate_general
      rw [from_amplitude_phase_single]
      norm_num [cosOne]
    rw [e]
    norm_num [cosOne, round2, roundHalfEven, Int.fract]
    rw [abs_of_nonneg (by norm_num : (0:ℚ) ≤ 1/250)]
    norm_num

/-- If the abstract cosine is bounded by 1 in absolute value (as the real
cosine is), the superposition is bounded by the sum of the absolute
amplitudes, for every list of phases/speeds and every instant. -/
theorem abs_superposition_le (c : ℚ → ℚ) (hc : ∀ x, |c x| ≤ 1) :
    ∀ (amps : List ℚ) (L : List (ℚ × ℚ)) (t : ℚ),
      |((amps.zip L).map (fun x => x.1 * c (x.2.2 * t - x.2.1))).sum|
        ≤ (amps.map (fun a => |a|)).sum := by
  intro amps
  induction amps with
  | nil => intro L t; simp
  | cons a as ih =>
    intro L t
    cases L with
    | nil =>
      simp only [List.zip_nil_right, List.map_nil, List.sum_nil, abs_zero]
      have : ∀ x ∈ (a :: as).map (fun a => |a|), 0 ≤ x := by
        intro x hx
        rcases List.mem_map.mp hx with ⟨y, _, rfl⟩
        exact abs_nonneg y
      exact List.sum_nonneg this
    | cons p ps =>
      simp only [List.zip_cons_cons, List.map_cons, List.sum_cons]
      have h1 : |a * c (p.2 * t - p.1)| ≤ |a| :=
        (abs_mul a _).le.trans (mul_le_of_le_one_right (abs_nonneg a) (hc _))
      calc |a * c (p.2 * t - p.1)
              + ((as.zip ps).map (fun x => x.1 * c (x.2.2 * t - x.2.1))).sum|
          ≤ |a * c (p.2 * t - p.1)|
              + |((as.zip ps).map (fun x => x.1 * c (x.2.2 * t - x.2.1))).sum| :=
            abs_add _ _
        _ ≤ |a| + (as.map (fun a => |a|)).sum := add_le_add h1 (ih ps t)

/-- C8. The synthesis function is total: it is a function defined on every
rational instant `t` — positive, zero, or negative elapsed seconds relative
to the reference epoch — and whenever the abstract cosine is bounded by 1
(as the real cosine is), the returned level always lies within
`Σ|H_i| + 0.005` of the mean level `A0`; in particular no instant is
rejected and no clipping or failure occurs before or after the calibration
window. -/
theorem C8_synthesis_total_and_bounded (c : ℚ → ℚ) (oms : List ℚ) (pi_ t : ℚ)
    (hc : ∀ x, |c x| ≤ 1) :
    |calculate_tide_uptide c oms pi_ t - A0| ≤ CONS_H.sum + 1/200 := by
  have habs : (CONS_H.map (fun a => |a|)).sum = CONS_H.sum := by
    norm_num [CONS_H, abs_of_nonneg]
  have hsup := abs_superposition_le c hc CONS_H ((CONS_G.map (deg2rad pi_)).zip oms) t
  rw [habs] at hsup
  have hround := abs_round2_sub_le (A0 + from_amplitude_phase c CONS_H (CONS_G.map (deg2rad pi_)) oms t)
  have e : calculate_tide_uptide c oms pi_ t
      = round2 (A0 + from_amplitude_phase c CONS_H (CONS_G.map (deg2rad pi_)) oms t) := rfl
  rw [e]
  have hsup' : |from_amplitude_phase c CONS_H (CONS_G.map (deg2rad pi_)) oms t| ≤ CONS_H.sum := hsup
  calc |round2 (A0 + from_amplitude_phase c CONS_H (CONS_G.map (deg2rad pi_)) oms t) - A0|
      = |(round2 (A0 + from_amplitude_phase c CONS_H (CONS_G.map (deg2rad pi_)) oms t)
          - (A0 + from_amplitude_phase c CONS_H (CONS_G.map (deg2rad pi_)) oms t))
          + from_amplitude_phase c CONS_H (CONS_G.map (deg2rad pi_)) oms t| := by ring_nf
    _ ≤ |round2 (A0 + from_amplitude_phase c CONS_H (CONS_G.map (deg2rad pi_)) oms t)
          - (A0 + from_amplitude_phase c CONS_H (CONS_G.map (deg2rad pi_)) oms t)|
          + |from_amplitude_phase c CONS_H (CONS_G.map (deg2rad pi_)) oms t| := abs_add _ _
    _ ≤ 1/200 + CONS_H.sum := add_le_add hround hsup'
    _ = CONS_H.sum + 1/200 := by ring

/-- C8 witness: evaluated one day before the reference epoch
(`t = −86400` seconds), with a bounded cosine stand-in, the level is
defined and within the stated bound of the mean level. -/
theorem C8_witness :
    |calculate_tide_uptide cosOne (List.replicate 13 0) 3 (-86400) - A0|
      ≤ CONS_H.sum + 1/200 :=
  C8_synthesis_total_and_bounded cosOne (List.replicate 13 0) 3 (-86400)
    (fun x => by norm_num [cosOne])

/-- `abs(days)` followed by the two sequential clamps of main.py lines
233-238: below 1 becomes 1, above 365 becomes 365. -/
def chartAbsDays (days : ℤ) : ℤ :=
  let a1 := if days < 0 then -days else days
  let a2 := if a1 < 1 then 1 else a1
  if a2 > 365 then 365 else a2

/-- Cadence selection of main.py lines 244-249: 15 minutes up to 10 days,
30 minutes up to 20 days, else 60 minutes. -/
def chartIntervalMinutes (days : ℤ) : ℤ :=
  if chartAbsDays days ≤ 10 then 15
  else if chartAbsDays days ≤ 20 then 30
  else 60

/-- `points_per_day = int(24 * 60 / interval_minutes)` (main.py line 251). -/
def chartPointsPerDay (days : ℤ) : ℤ := 24 * 60 / chartIntervalMinutes days

/-- `num_points = abs_days * points_per_day` (main.py line 252). -/
def chartNumPoints (days : ℤ) : ℕ := (chartAbsDays days * chartPointsPerDay days).toNat

/-- The timestamp sequence of `get_tide_chart` (main.py lines 254-259), in
seconds since the reference epoch: backward windows step `now` downwards and
are then reversed into chronological order; forward windows step upwards.
`timedelta(minutes=m)` contributes `60·m` seconds. -/
def get_tide_chart_times (now : ℚ) (days : ℤ) : List ℚ :=
  if days < 0 then
    ((List.range (chartNumPoints days)).map
      (fun (i : ℕ) => now - ((chartIntervalMinutes days * 60 : ℤ) : ℚ) * (i : ℚ))).reverse
  else
    (List.range (chartNumPoints days)).map
      (fun (i : ℕ) => now + ((chartIntervalMinutes days * 60 : ℤ) : ℚ) * (i : ℚ))

/-- The chart's level series (main.py lines 261-263): each timestamp paired
with the synthesized level. -/
def get_tide_chart (c : ℚ → ℚ) (oms : List ℚ) (pi_ now : ℚ) (days : ℤ) :
    List (ℚ × ℚ) :=
  (get_tide_chart_times now days).map (fun t => (t, calculate_tide_uptide c oms pi_ t))

theorem chartIntervalMinutes_pos (days : ℤ) : 0 < chartIntervalMinutes days := by
  unfold chartIntervalMinutes
  split_ifs <;> norm_num

/-- C5. For every negative requested window (BACKWARD direction), the chart's
timestamps are `now − i·cadence` reordered to strictly increasing
chronological order, so the returned series is never reverse-chronological:
both the timestamp list and the level series are strictly increasing in
time. -/
theorem C5_backward_chart_chronological (now : ℚ) (days : ℤ) (h : days < 0) :
    List.Chain' (· < ·) (get_tide_chart_times now days)
    ∧ ∀ (c : ℚ → ℚ) (oms : List ℚ) (pi_ : ℚ),
        List.Chain' (fun p q => p.1 < q.1) (get_tide_chart c oms pi_ now days) := by
  have hk : (0:ℚ) < ((chartIntervalMinutes days * 60 : ℤ) : ℚ) := by
    have hpos := chartIntervalMinutes_pos days
    push_cast
    positivity
  have htimes : List.Chain' (· < ·) (get_tide_chart_times now days) := by
    unfold get_tide_chart_times
    rw [if_pos h, List.chain'_reverse, List.chain'_iff_get]
    intro i hi
    simp only [List.get_eq_getElem, List.getElem_map, List.getElem_range]
    show now - ((chartIntervalMinutes days * 60 : ℤ) : ℚ) * ((i + 1 : ℕ) : ℚ)
        < now - ((chartIntervalMinutes days * 60 : ℤ) : ℚ) * (i : ℚ)
    push_cast
    push_cast at hk
    simp only [mul_add, mul_one]
    linarith
  refine ⟨htimes, ?_⟩
  intro c oms pi_
  unfold get_tide_chart
  rw [List.chain'_map]
  exact htimes

/-- C5 witness: a concrete one-day backward window starting at the epoch. -/
theorem C5_witness :
    List.Chain' (· < ·) (get_tide_chart_times 0 (-1))
    ∧ ∀ (c : ℚ → ℚ) (oms : List ℚ) (pi_ : ℚ),
        List.Chain' (fun p q => p.1 < q.1) (get_tide_chart c oms pi_ 0 (-1)) :=
  C5_backward_chart_chronological 0 (-1) (by decide)

/-- The clamp of main.py lines 158-159: `days` above 30 becomes 30; no lower
bound is checked. -/
def forecastDays (days : ℤ) : ℤ := if 30 < days then 30 else days

/-- `pd.date_range(start, periods, freq)` (main.py line 162), restricted to
what the call uses: `periods` equally spaced instants from `start` stepping
`stepSeconds`; pandas rejects a negative `periods` with an error, modelled
as `none`. -/
def pd_date_range (start : ℚ) (periods : ℤ) (stepSeconds : ℚ) : Option (List ℚ) :=
  if periods < 0 then none
  else some ((List.range periods.toNat).map (fun (i : ℕ) => start + stepSeconds * (i : ℚ)))

/-- `get_forecast` (main.py lines 155-181): the hourly forecast as
(timestamp, level) pairs over `forecastDays days * 24` points starting at
`now`. -/
def get_forecast (c : ℚ → ℚ) (oms : List ℚ) (pi_ now : ℚ) (days : ℤ) :
    Option (List (ℚ × ℚ)) :=
  (pd_date_range now (forecastDays days * 24) 3600).map
    (fun ts => ts.map (fun t => (t, calculate_tide_uptide c oms pi_ t)))

/-- C6 (amended). The forecast endpoint performs no lower-bound validation:
`days = 0` is not rejected and silently yields a zero-length forecast, and
negative `days` fails only through the underlying date-range constructor's
negative-periods error; there is no INVALID_PARAMETER rejection of
non-positive `days`. -/
theorem C6_nonpositive_days_not_rejected (c : ℚ → ℚ) (oms : List ℚ) (pi_ now : ℚ) :
    get_forecast c oms pi_ now 0 = some []
    ∧ ∀ days : ℤ, days < 0 → get_forecast c oms pi_ now days = none := by
  constructor
  · have h1 : forecastDays 0 = 0 := by unfold forecastDays; norm_num
    unfold get_forecast
    rw [h1]
    unfold pd_date_range
    norm_num
  · intro days hd
    have h1 : forecastDays days = days := by
      unfold forecastDays; rw [if_neg (by omega : ¬ 30 < days)]
    unfold get_forecast
    rw [h1]
    unfold pd_date_range
    rw [if_pos (by omega : days * 24 < 0)]
    rfl

/-- C6 counterexample. Invoked with the non-positive point count `days = 0`,
the forecast returns a zero-length series (`some []`) instead of rejecting
the call: the silent misbehaviour the claim says cannot happen. -/
theorem C6_counterexample :
    get_forecast cosOne (List.replicate 13 0) 3 0 0 = some [] := by
  have h1 : forecastDays 0 = 0 := by unfold forecastDays; norm_num
  unfold get_forecast
  rw [h1]
  unfold pd_date_range
  norm_num

/-- C6 witness: at `days = 0` the forecast is `some []`; at `days = -1` the
range constructor fails. -/
theorem C6_witness :
    get_forecast cosOne (List.replicate 13 0) 3 0 0 = some []
    ∧ get_forecast cosOne (List.replicate 13 0) 3 0 (-1) = none :=
  ⟨(C6_nonpositive_days_not_rejected cosOne (List.replicate 13 0) 3 0).1,
   (C6_nonpositive_days_not_rejected cosOne (List.replicate 13 0) 3 0).2 (-1) (by decide)⟩

/-- The maximum forecast window advertised by the index response
("max 365", main.py line 86). -/
def forecastDocMaxDays : ℕ := 365

/-- C9. Every `days` above 30 is silently clamped to 30, so the forecast
holds exactly 30·24 = 720 hourly points, although the index response
documents the endpoint as supporting up to 365 days. -/
theorem C9_days_clamped_to_30 (c : ℚ → ℚ) (oms : List ℚ) (pi_ now : ℚ)
    (days : ℤ) (h : 30 < days) :
    forecastDays days = 30
    ∧ (get_forecast c oms pi_ now days).map List.length = some 720
    ∧ (720 : ℕ) = 30 * 24 ∧ forecastDocMaxDays = 365 := by
  have h1 : forecastDays days = 30 := by unfold forecastDays; rw [if_pos h]
  refine ⟨h1, ?_, rfl, rfl⟩
  unfold get_forecast
  rw [h1]
  unfold pd_date_range
  rw [if_neg (by norm_num : ¬ (30 * 24 : ℤ) < 0)]
  simp

/-- C9 witness: at the documented maximum `days = 365` the forecast still
holds only 720 points. -/
theorem C9_witness :
    forecastDays 365 = 30
    ∧ (get_forecast cosOne (List.replicate 13 0) 3 0 365).map List.length = some 720
    ∧ (720 : ℕ) = 30 * 24 ∧ forecastDocMaxDays = 365 :=
  C9_days_clamped_to_30 cosOne (List.replicate 13 0) 3 0 365 (by decide)

/-- Element at index `i` of a sampled series (default value out of range;
all uses stay in range). -/
def levelAt {α : Type} [Inhabited α] (xs : List α) (i : ℕ) : α := xs.getD i default

/-- Scans rightwards from a plateau of value `v`: skips equal samples and
reports whether the first differing sample is strictly smaller; `false`
when the list ends while still equal. -/
def dropsAfter {α : Type} [LinearOrder α] (v : α) : List α → Bool
  | [] => false
  | x :: r => if x = v then dropsAfter v r else decide (x < v)

/-- Modelled from the spec: the candidate-detection step of
`scipy.signal.find_peaks` (main.py lines 123-128), an external library whose
code is not in the repository; §4.3 of the spec describes it: a sample is a
high-tide candidate when it strictly exceeds its left neighbour and the
first differing value to its right is strictly smaller (a plateau is
attributed to its first index), which excludes index 0 and the last index. -/
def isHighCandidate {α : Type} [LinearOrder α] [Inhabited α] (xs : List α) (i : ℕ) : Bool :=
  decide (0 < i) && decide (i + 1 < xs.length)
    && decide (levelAt xs (i - 1) < levelAt xs i)
    && dropsAfter (levelAt xs i) (xs.drop (i + 1))

/-- All high-tide candidate indices of a series, in scan order. -/
def highCandidates {α : Type} [LinearOrder α] [Inhabited α] (xs : List α) : List ℕ :=
  (List.range xs.length).filter (fun i => isHighCandidate xs i)

/-- Insert an index into a list of indices kept sorted by decreasing
series level. -/
def insertByLevel {α : Type} [LinearOrder α] [Inhabited α] (xs : List α) (i : ℕ) :
    List ℕ → List ℕ
  | [] => [i]
  | j :: r => if levelAt xs j < levelAt xs i then i :: j :: r else j :: insertByLevel xs i r

/-- Sort candidate indices by decreasing series level (the processing order
of the minimum-distance suppression). -/
def sortByLevel {α : Type} [LinearOrder α] [Inhabited α] (xs : List α) :
    List ℕ → List ℕ
  | [] => []
  | i :: r => insertByLevel xs i (sortByLevel xs r)

/-- Whether index `i` is at least `minsep` samples away from every already
accepted index. -/
def farFromAll (minsep : ℕ) (acc : List ℕ) (i : ℕ) : Bool :=
  acc.all (fun a => decide (minsep ≤ Nat.dist a i))

/-- Modelled from the spec: the `distance` suppression of
`scipy.signal.find_peaks` as described in §4.3 — iterate candidates in
order of decreasing level, accept a candidate only when it is at least
`minsep` indices from every already accepted one. -/
def selectByDistance (minsep : ℕ) : List ℕ → List ℕ → List ℕ
  | acc, [] => acc
  | acc, i :: r =>
      selectByDistance minsep (if farFromAll minsep acc i then acc ++ [i] else acc) r

/-- Insert into an ascending list of indices. -/
def insertAsc (i : ℕ) : List ℕ → List ℕ
  | [] => [i]
  | j :: r => if i ≤ j then i :: j :: r else j :: insertAsc i r

/-- Sort indices ascending (events are reported in timestamp order). -/
def sortAsc : List ℕ → List ℕ
  | [] => []
  | i :: r => insertAsc i (sortAsc r)

/-- Modelled from the spec: `scipy.signal.find_peaks(xs, distance=minsep)`
(main.py lines 126 and 128; low tides are found by applying it to the
negated series, as the code does): candidate detection, greedy suppression
by decreasing level, output in index order. -/
def find_peaks {α : Type} [LinearOrder α] [Inhabited α] (xs : List α) (minsep : ℕ) :
    List ℕ :=
  sortAsc (selectByDistance minsep [] (sortByLevel xs (highCandidates xs)))

/-- The 5-minute level grid of `get_daily_extremes` (main.py lines 112-120):
288 samples from the UTC start of day `dayStart` (seconds since the
reference epoch), each rounded to 2 decimals. -/
def daily_levels (c : ℚ → ℚ) (oms : List ℚ) (pi_ dayStart : ℚ) : List ℚ :=
  (List.range 288).map
    (fun (i : ℕ) => calculate_tide_uptide c oms pi_ (dayStart + 300 * (i : ℚ)))

/-- High-tide indices of `get_daily_extremes` (main.py line 126):
`find_peaks(levels, distance=60)`. -/
def get_daily_extremes_high_indices (c : ℚ → ℚ) (oms : List ℚ) (pi_ dayStart : ℚ) :
    List ℕ :=
  find_peaks (daily_levels c oms pi_ dayStart) 60

/-- Low-tide indices of `get_daily_extremes` (main.py line 128):
`find_peaks(-levels, distance=60)`. -/
def get_daily_extremes_low_indices (c : ℚ → ℚ) (oms : List ℚ) (pi_ dayStart : ℚ) :
    List ℕ :=
  find_peaks ((daily_levels c oms pi_ dayStart).map (fun x => -x)) 60

theorem mem_insertByLevel {α : Type} [LinearOrder α] [Inhabited α]
    (xs : List α) (i a : ℕ) (l : List ℕ) :
    a ∈ insertByLevel xs i l ↔ a = i ∨ a ∈ l := by
  induction l with
  | nil => simp [insertByLevel]
  | cons j r ih =>
    unfold insertByLevel
    split_ifs with h
    · simp
    · simp only [List.mem_cons, ih]
      tauto

theorem mem_sortByLevel {α : Type} [LinearOrder α] [Inhabited α]
    (xs : List α) (a : ℕ) (l : List ℕ) :
    a ∈ sortByLevel xs l ↔ a ∈ l := by
  induction l with
  | nil => simp [sortByLevel]
  | cons i r ih =>
    unfold sortByLevel
    rw [mem_insertByLevel, ih]
    simp

theorem pairwise_insertByLevel {α : Type} [LinearOrder α] [Inhabited α]
    (xs : List α) (i : ℕ) (l : List ℕ)
    (hl : l.Pairwise (fun a b => levelAt xs b ≤ levelAt xs a)) :
    (insertByLevel xs i l).Pairwise (fun a b => levelAt xs b ≤ levelAt xs a) := by
  induction l with
  | nil => simp [insertByLevel]
  | cons j r ih =>
    rcases List.pairwise_cons.mp hl with ⟨hj, hr⟩
    unfold insertByLevel
    split_ifs with h
    · refine List.pairwise_cons.mpr ⟨?_, hl⟩
      intro b hb
      rcases List.mem_cons.mp hb with rfl | hbr
      · exact le_of_lt h
      · exact le_trans (hj b hbr) (le_of_lt h)
    · refine List.pairwise_cons.mpr ⟨?_, ih hr⟩
      intro b hb
      rcases (mem_insertByLevel xs i b r).mp hb with rfl | hbr
      · exact not_lt.mp h
      · exact hj b hbr

theorem pairwise_sortByLevel {α : Type} [LinearOrder α] [Inhabited α]
    (xs : List α) (l : List ℕ) :
    (sortByLevel xs l).Pairwise (fun a b => levelAt xs b ≤ levelAt xs a) := by
  induction l with
  | nil => simp [sortByLevel]
  | cons i r ih =>
    unfold sortByLevel
    exact pairwise_insertByLevel xs i _ ih

theorem mem_insertAsc (i a : ℕ) (l : List ℕ) :
    a ∈ insertAsc i l ↔ a = i ∨ a ∈ l := by
  induction l with
  | nil => simp [insertAsc]
  | cons j r ih =>
    unfold insertAsc
    split_ifs with h
    · simp
    · simp only [List.mem_cons, ih]
      tauto

theorem mem_sortAsc (a : ℕ) (l : List ℕ) : a ∈ sortAsc l ↔ a ∈ l := by
  induction l with
  | nil => simp [sortAsc]
  | cons i r ih =>
    unfold sortAsc
    rw [mem_insertAsc, ih]
    simp

theorem mem_selectByDistance_left (minsep : ℕ) (l : List ℕ) :
    ∀ (acc : List ℕ) (a : ℕ), a ∈ acc → a ∈ selectByDistance minsep acc l := by
  induction l with
  | nil =>
    intro acc a h
    simpa [selectByDistance] using h
  | cons i r ih =>
    intro acc a h
    unfold selectByDistance
    split_ifs with hf
    · exact ih _ a (List.mem_append_left _ h)
    · exact ih _ a h

theorem mem_selectByDistance (minsep : ℕ) (l : List ℕ) :
    ∀ (acc : List ℕ) (a : ℕ), a ∈ selectByDistance minsep acc l → a ∈ acc ∨ a ∈ l := by
  induction l with
  | nil =>
    intro acc a h
    left
    simpa [selectByDistance] using h
  | cons i r ih =>
    intro acc a h
    unfold selectByDistance at h
    split_ifs at h with hf
    · rcases ih _ a h with hacc | hr
      · rcases List.mem_append.mp hacc with h1 | h2
        · exact Or.inl h1
        · right
          simp only [List.mem_singleton] at h2
          simp [h2]
      · right
        exact List.mem_cons_of_mem _ hr
    · rcases ih _ a h with hacc | hr
      · exact Or.inl hacc
      · right
        exact List.mem_cons_of_mem _ hr

theorem pairwise_selectByDistance (minsep : ℕ) (l : List ℕ) :
    ∀ acc : List ℕ, acc.Pairwise (fun a b => minsep ≤ Nat.dist a b) →
      (selectByDistance minsep acc l).Pairwise (fun a b => minsep ≤ Nat.dist a b) := by
  induction l with
  | nil =>
    intro acc h
    simpa [selectByDistance] using h
  | cons i r ih =>
    intro acc h
    unfold selectByDistance
    split_ifs with hf
    · apply ih
      rw [List.pairwise_append]
      refine ⟨h, List.pairwise_singleton _ _, ?_⟩
      intro a ha b hb
      simp only [List.mem_singleton] at hb
      subst hb
      unfold farFromAll at hf
      have := List.all_eq_true.mp hf a ha
      exact of_decide_eq_true this
    · exact ih acc h

theorem selectByDistance_dominates {α : Type} [LinearOrder α] [Inhabited α]
    (xs : List α) (minsep cand : ℕ) (l : List ℕ) :
    l.Pairwise (fun a b => levelAt xs b ≤ levelAt xs a) →
    ∀ acc : List ℕ, (∀ b ∈ acc, levelAt xs cand ≤ levelAt xs b) →
      cand ∈ l → cand ∉ selectByDistance minsep acc l →
      ∃ a, a ∈ selectByDistance minsep acc l ∧ Nat.dist a cand < minsep
        ∧ levelAt xs cand ≤ levelAt xs a := by
  induction l with
  | nil =>
    intro _ acc _ hmem _
    cases hmem
  | cons i r ih =>
    intro hpw acc haccge hmem hnotin
    rcases List.pairwise_cons.mp hpw with ⟨hi, hr⟩
    by_cases hic : i = cand
    · subst hic
      unfold selectByDistance at hnotin ⊢
      split_ifs at hnotin ⊢ with hf
      · exact absurd
          (mem_selectByDistance_left minsep r _ i
            (List.mem_append_right _ (List.mem_singleton_self i)))
          hnotin
      · unfold farFromAll at hf
        rw [List.all_eq_true] at hf
        push_neg at hf
        rcases hf with ⟨a, ha, hfar⟩
        have hlt : Nat.dist a i < minsep := by
          by_contra hge
          exact hfar (decide_eq_true (not_lt.mp hge))
        exact ⟨a, mem_selectByDistance_left minsep r acc a ha, hlt, haccge a ha⟩
    · have hmem' : cand ∈ r := by
        rcases List.mem_cons.mp hmem with h1 | h1
        · exact absurd h1.symm hic
        · exact h1
      have hle_i : levelAt xs cand ≤ levelAt xs i := hi cand hmem'
      unfold selectByDistance at hnotin ⊢
      split_ifs at hnotin ⊢ with hf
      · refine ih hr (acc ++ [i]) ?_ hmem' hnotin
        intro b hb
        rcases List.mem_append.mp hb with hb1 | hb2
        · exact haccge b hb1
        · simp only [List.mem_singleton] at hb2
          subst hb2
          exact hle_i
      · exact ih hr acc haccge hmem' hnotin

theorem mem_find_peaks_candidate {α : Type} [LinearOrder α] [Inhabited α]
    (xs : List α) (minsep i : ℕ) (h : i ∈ find_peaks xs minsep) :
    isHighCandidate xs i = true := by
  unfold find_peaks at h
  rw [mem_sortAsc] at h
  rcases mem_selectByDistance minsep _ _ _ h with hacc | hl
  · cases hacc
  · rw [mem_sortByLevel] at hl
    exact (List.mem_filter.mp hl).2

theorem isHighCandidate_bounds {α : Type} [LinearOrder α] [Inhabited α]
    (xs : List α) (i : ℕ) (h : isHighCandidate xs i = true) :
    0 < i ∧ i + 1 < xs.length := by
  unfold isHighCandidate at h
  simp only [Bool.and_eq_true, decide_eq_true_eq] at h
  exact ⟨h.1.1.1, h.1.1.2⟩

theorem find_peaks_min_separation {α : Type} [LinearOrder α] [Inhabited α]
    (xs : List α) (minsep : ℕ) :
    ∀ i ∈ find_peaks xs minsep, ∀ j ∈ find_peaks xs minsep, i ≠ j →
      minsep ≤ Nat.dist i j := by
  intro i hi j hj hne
  unfold find_peaks at hi hj
  rw [mem_sortAsc] at hi hj
  have hpw := pairwise_selectByDistance minsep (sortByLevel xs (highCandidates xs))
    [] (List.Pairwise.nil)
  have hsymm : Symmetric (fun a b => minsep ≤ Nat.dist a b) := by
    intro a b h
    rwa [Nat.dist_comm]
  exact List.Pairwise.forall hsymm hpw hi hj hne

theorem find_peaks_dominates {α : Type} [LinearOrder α] [Inhabited α]
    (xs : List α) (minsep : ℕ) :
    ∀ cand ∈ highCandidates xs, cand ∉ find_peaks xs minsep →
      ∃ a, a ∈ find_peaks xs minsep ∧ Nat.dist a cand < minsep
        ∧ levelAt xs cand ≤ levelAt xs a := by
  intro cand hcand hnot
  unfold find_peaks at hnot ⊢
  rw [mem_sortAsc] at hnot
  have hdom := selectByDistance_dominates xs minsep cand
    (sortByLevel xs (highCandidates xs))
    (pairwise_sortByLevel xs _)
    [] (by intro b hb; cases hb)
    ((mem_sortByLevel xs cand _).mpr hcand) hnot
  rcases hdom with ⟨a, hmem, hdist, hle⟩
  exact ⟨a, (mem_sortAsc a _).mpr hmem, hdist, hle⟩

/-- C2. Any two reported events of the same kind are at least
`min_separation_samples` indices apart (highs and lows alike, lows being
peaks of the negated series exactly as the code computes them); a candidate
that is suppressed is always within the window of an accepted candidate
whose level is at least as high (for highs) — equivalently at most as low
for lows on the negated series — so a conflict is resolved by level, not by
scan order; and the daily-extremes path invokes the detector with
`min_separation_samples = 60`. -/
theorem C2_min_separation_and_level_priority {α : Type}
    [LinearOrder α] [Inhabited α] [Neg α] (xs : List α) (minsep : ℕ) :
    (∀ i ∈ find_peaks xs minsep, ∀ j ∈ find_peaks xs minsep, i ≠ j →
      minsep ≤ Nat.dist i j)
    ∧ (∀ i ∈ find_peaks (xs.map (fun x => -x)) minsep,
        ∀ j ∈ find_peaks (xs.map (fun x => -x)) minsep, i ≠ j →
          minsep ≤ Nat.dist i j)
    ∧ (∀ cand ∈ highCandidates xs, cand ∉ find_peaks xs minsep →
        ∃ a, a ∈ find_peaks xs minsep ∧ Nat.dist a cand < minsep
          ∧ levelAt xs cand ≤ levelAt xs a)
    ∧ (∀ cand ∈ highCandidates (xs.map (fun x => -x)),
        cand ∉ find_peaks (xs.map (fun x => -x)) minsep →
          ∃ a, a ∈ find_peaks (xs.map (fun x => -x)) minsep
            ∧ Nat.dist a cand < minsep
            ∧ levelAt (xs.map (fun x => -x)) cand ≤ levelAt (xs.map (fun x => -x)) a)
    ∧ (∀ (c : ℚ → ℚ) (oms : List ℚ) (pi_ d : ℚ),
        get_daily_extremes_high_indices c oms pi_ d
          = find_peaks (daily_levels c oms pi_ d) 60
        ∧ get_daily_extremes_low_indices c oms pi_ d
          = find_peaks ((daily_levels c oms pi_ d).map (fun x => -x)) 60) :=
  ⟨find_peaks_min_separation xs minsep,
   find_peaks_min_separation _ minsep,
   find_peaks_dominates xs minsep,
   find_peaks_dominates _ minsep,
   fun _ _ _ _ => ⟨rfl, rfl⟩⟩

/-- C2 witness: on the series [0,5,0,9,0] the two high candidates are at
indices 1 (level 5) and 3 (level 9); with separation 1 both are kept and
are 2 apart, while with separation 60 the suppressed candidate 1 lies
within the window of the accepted, higher candidate. -/
theorem C2_witness :
    (1 ≤ Nat.dist 1 3)
    ∧ (∃ a, a ∈ find_peaks [(0:ℤ),5,0,9,0] 60 ∧ Nat.dist a 1 < 60
        ∧ levelAt [(0:ℤ),5,0,9,0] 1 ≤ levelAt [(0:ℤ),5,0,9,0] a) :=
  ⟨(C2_min_separation_and_level_priority [(0:ℤ),5,0,9,0] 1).1
      1 (by decide) 3 (by decide) (by decide),
   (C2_min_separation_and_level_priority [(0:ℤ),5,0,9,0] 60).2.2.1
      1 (by decide) (by decide)⟩

/-- C7. No reported extremum — high or low (lows being peaks of the negated
series, as the code computes them) — ever has index 0 or the last index of
the series, whatever the series values are, monotonic trends included. -/
theorem C7_no_extrema_at_edges {α : Type} [LinearOrder α] [Inhabited α] [Neg α]
    (xs : List α) (minsep : ℕ) :
    (∀ i ∈ find_peaks xs minsep, 0 < i ∧ i + 1 < xs.length)
    ∧ (∀ i ∈ find_peaks (xs.map (fun x => -x)) minsep, 0 < i ∧ i + 1 < xs.length) := by
  constructor
  · intro i hi
    exact isHighCandidate_bounds xs i (mem_find_peaks_candidate xs minsep i hi)
  · intro i hi
    have h := isHighCandidate_bounds _ i (mem_find_peaks_candidate _ minsep i hi)
    rwa [List.length_map] at h

/-- C7 witness: on [3,5,2,0,1] the reported high is at index 1 and the
reported low at index 3, both interior. -/
theorem C7_witness :
    (0 < 1 ∧ 1 + 1 < ([(3:ℤ),5,2,0,1] : List ℤ).length)
    ∧ (0 < 3 ∧ 3 + 1 < ([(3:ℤ),5,2,0,1] : List ℤ).length) :=
  ⟨(C7_no_extrema_at_edges [(3:ℤ),5,2,0,1] 1).1 1 (by decide),
   (C7_no_extrema_at_edges [(3:ℤ),5,2,0,1] 1).2 3 (by decide)⟩

/-- `errors = predicted - observed` (main.py line 203), elementwise signed
differences. -/
def errorsOf (predicted observed : List ℚ) : List ℚ :=
  (predicted.zip observed).map (fun p => p.1 - p.2)

/-- `np.mean` over a list (main.py lines 217-219). -/
def listMean (l : List ℚ) : ℚ := l.sum / l.length

/-- `mean_error_cm` (main.py line 217): arithmetic mean of signed errors. -/
def mean_error_cm (predicted observed : List ℚ) : ℚ :=
  listMean (errorsOf predicted observed)

/-- `mae_cm` (main.py line 218): mean of absolute errors. -/
def mae_cm (predicted observed : List ℚ) : ℚ :=
  listMean ((errorsOf predicted observed).map (fun x => |x|))

/-- The mean squared error; `rmse_cm` (main.py line 219) is its square
root, taken in ℝ in the statements below. -/
def mse_cm (predicted observed : List ℚ) : ℚ :=
  listMean ((errorsOf predicted observed).map (fun x => x ^ 2))

/-- `max_error_cm` (main.py line 220): the maximum absolute error (the code
applies `np.max` only to nonempty series, so the fold's base 0 never
surfaces). -/
def max_error_cm (predicted observed : List ℚ) : ℚ :=
  ((errorsOf predicted observed).map (fun x => |x|)).foldr max 0

/-- The predicted series of the validator-arithmetic test case. -/
def predictedSample : List ℚ := [302, 343, 374]

/-- The observed series of the validator-arithmetic test case (the first
three observations hardcoded on main.py lines 188-190). -/
def observedSample : List ℚ := [300, 340, 370]

/-- C3 (amended). On predicted = [302,343,374] and observed =
[300,340,370], the signed per-index errors are [2,3,4]; the mean error and
mean absolute error are exactly 3 (not ≈ 3.33), the mean squared error is
29/3 so the root-mean-square error lies strictly between 3.10 and 3.11
(not ≈ 3.33), and the maximum absolute error is 4 as claimed. -/
theorem C3_validator_statistics :
    errorsOf predictedSample observedSample = [2, 3, 4]
    ∧ mean_error_cm predictedSample observedSample = 3
    ∧ mae_cm predictedSample observedSample = 3
    ∧ mse_cm predictedSample observedSample = 29/3
    ∧ max_error_cm predictedSample observedSample = 4
    ∧ (31/10 : ℝ) < Real.sqrt ((mse_cm predictedSample observedSample : ℚ) : ℝ)
    ∧ Real.sqrt ((mse_cm predictedSample observedSample : ℚ) : ℝ) < 311/100 := by
  have herr : errorsOf predictedSample observedSample = [2, 3, 4] := by
    norm_num [errorsOf, predictedSample, observedSample]
  have hmse : mse_cm predictedSample observedSample = 29/3 := by
    rw [mse_cm, herr]
    norm_num [listMean]
  refine ⟨herr, ?_, ?_, hmse, ?_, ?_, ?_⟩
  · rw [mean_error_cm, herr]
    norm_num [listMean]
  · rw [mae_cm, herr]
    norm_num [listMean, abs_of_nonneg]
  · rw [max_error_cm, herr]
    norm_num [abs_of_nonneg]
  · rw [hmse]
    rw [Real.lt_sqrt (by norm_num : (0:ℝ) ≤ 31/10)]
    push_cast
    norm_num
  · rw [hmse]
    rw [Real.sqrt_lt' (by norm_num : (0:ℝ) < 311/100)]
    push_cast
    norm_num

/-- C3 counterexample. The claim's expected mean error ≈ 3.33 is wrong: the
mean of the signed errors [2,3,4] is exactly 3, which is not within even a
generous 0.01 of 3.33. -/
theorem C3_counterexample :
    ¬ (|mean_error_cm predictedSample observedSample - 333/100| ≤ 1/100) := by
  have h : mean_error_cm predictedSample observedSample = 3 := by
    norm_num [mean_error_cm, errorsOf, listMean, predictedSample, observedSample]
  rw [h, show (3:ℚ) - 333/100 = -(33/100) by norm_num, abs_neg,
    abs_of_nonneg (by norm_num : (0:ℚ) ≤ 33/100)]
  norm_num

/-- Error taxonomy of spec §7 as far as the validator needs it. -/
inductive ValidationError where
  | LENGTH_MISMATCH
deriving DecidableEq

/-- A validation report (spec §3): per-index comparisons
(label, observed, predicted, error) and the aggregate statistics; the
root-mean-square error is carried as the mean squared error, its square
root belonging to the boundary. -/
structure ValidationReport where
  comparisons : List (String × ℚ × ℚ × ℚ)
  mean_error : ℚ
  mean_absolute_error : ℚ
  mean_square_error : ℚ
  max_absolute_error : ℚ
deriving DecidableEq

/-- Modelled from the spec: the general `validate(predicted, observed,
labels)` operation of §4.4 is not implemented in src/ — main.py's
`validate_model` (lines 183-223) is a fixed caller comparing two hardcoded
equal-length 24-point series — so the operation follows the spec's words:
require all three lengths equal, fail with LENGTH_MISMATCH otherwise, and
never truncate or pad. -/
def validate (predicted observed : List ℚ) (labels : List String) :
    Except ValidationError ValidationReport :=
  if predicted.length = observed.length ∧ observed.length = labels.length then
    Except.ok
      { comparisons :=
          (labels.zip (predicted.zip observed)).map
            (fun y => (y.1, y.2.2, y.2.1, y.2.1 - y.2.2))
        mean_error := mean_error_cm predicted observed
        mean_absolute_error := mae_cm predicted observed
        mean_square_error := mse_cm predicted observed
        max_absolute_error := max_error_cm predicted observed }
  else Except.error ValidationError.LENGTH_MISMATCH

/-- C4. Whenever the validator's three input sequences do not all have the
same length, it fails with LENGTH_MISMATCH; no truncated or padded report
is ever produced. -/
theorem C4_length_mismatch_rejected (predicted observed : List ℚ)
    (labels : List String)
    (h : ¬ (predicted.length = observed.length ∧ observed.length = labels.length)) :
    validate predicted observed labels = Except.error ValidationError.LENGTH_MISMATCH := by
  unfold validate
  rw [if_neg h]

/-- C4 witness: 24 predictions against 23 observations fail with
LENGTH_MISMATCH. -/
theorem C4_witness :
    validate (List.replicate 24 0) (List.replicate 23 0) (List.replicate 24 "h")
      = Except.error ValidationError.LENGTH_MISMATCH :=
  C4_length_mismatch_rejected (List.replicate 24 0) (List.replicate 23 0)
    (List.replicate 24 "h") (by decide)

/-- `VN_TIMEZONE = timezone(timedelta(hours=0))` (main.py line 12): the
hour offset of the zone the service presents as Vietnam local time. -/
def VN_TIMEZONE_offset_hours : ℤ := 0

/-- The timezone label reported in responses (main.py line 103). -/
def VN_TIMEZONE_label : String := "GMT+7"

/-- Rendering a UTC instant in the configured local zone
(`astimezone(VN_TIMEZONE)`, main.py lines 96, 141, 170): shifts the wall
clock by the zone offset. Instants are seconds since the reference epoch. -/
def utcToLocal (t : ℚ) : ℚ := t + (VN_TIMEZONE_offset_hours : ℚ) * 3600

/-- Interpreting a wall clock expressed in the configured zone as a UTC
instant (`astimezone(timezone.utc)` on a VN_TIMEZONE-aware datetime,
main.py line 194). -/
def localToUtc (t : ℚ) : ℚ := t - (VN_TIMEZONE_offset_hours : ℚ) * 3600

/-- Wall-clock seconds from 2000-01-01 00:00 to 2026-02-01 00:00 on the
civil calendar (9528 days): the wall clock of the validation start
`datetime(2026, 2, 1, 0, 0, 0, tzinfo=VN_TIMEZONE)` (main.py line 193)
before zone interpretation. -/
def validation_test_date_wallclock : ℚ := 9528 * 86400

/-- `test_date_utc` (main.py line 194): the validation start as a UTC
instant. -/
def validation_test_date_utc : ℚ := localToUtc validation_test_date_wallclock

/-- `hours_utc` (main.py line 196): the 24 hourly prediction instants of
the validation endpoint. -/
def validation_hours_utc : List ℚ :=
  (List.range 24).map (fun (i : ℕ) => validation_test_date_utc + 3600 * (i : ℚ))

/-- C10. The "local time" zone constant carries a zero-hour offset although
it is labeled GMT+7, so rendering any UTC instant in it is the identity —
every `time_local` field equals the UTC instant unconverted — and the
validation start 2026-02-01 00:00 "local" is interpreted as
2026-02-01 00:00 UTC, from which the 24 hourly comparison instants are
taken. -/
theorem C10_local_zone_offset_is_zero :
    VN_TIMEZONE_offset_hours = 0
    ∧ VN_TIMEZONE_label = "GMT+7"
    ∧ (∀ t : ℚ, utcToLocal t = t)
    ∧ validation_test_date_utc = validation_test_date_wallclock
    ∧ validation_hours_utc
        = (List.range 24).map
            (fun (i : ℕ) => validation_test_date_wallclock + 3600 * (i : ℚ)) := by
  have h3 : validation_test_date_utc = validation_test_date_wallclock := by
    unfold validation_test_date_utc localToUtc VN_TIMEZONE_offset_hours
    push_cast
    ring
  refine ⟨rfl, rfl, ?_, h3, ?_⟩
  · intro t
    unfold utcToLocal VN_TIMEZONE_offset_hours
    push_cast
    ring
  · unfold validation_hours_utc
    rw [h3]
